import Mathlib

/-!
Verification of the code-block instruction module (`bot/cogs/codeblock/instructions.py`).

The module under study is the advisor: it consumes the output of an external
scanner / tag analyzer / code-likeness classifier (the `parsing` module, which the
spec treats as an out-of-scope collaborator specified only by its interface) and
composes a single remediation message.  The embedding therefore parameterizes every
advisor function by a `Parsing` record holding the collaborator functions, and all
theorems quantify over that record.
-/

set_option maxRecDepth 20000

/-- Modelled from the spec: the canonical fence character is the backtick
(spec section 3, Canonical fence character); the constant itself lives in the
external scanner module, which is not part of the analyzed source. -/
def BACKTICK : String := "`"

/-- Modelled from the spec: the fixed, case-insensitively matched set of recognized
Python language aliases (spec section 3: e.g. python, py, REPL-style prompts); the
set itself lives in the external scanner module. -/
def PY_LANG_CODES : List String := ["python", "pycon", "py"]

/-- A fenced code block record as produced by the scanner (spec section 3).
Field names follow the accesses in the source (`block.content`, `block.language`,
`block.tick`). -/
structure CodeBlock where
  content : String
  language : String
  tick : String
deriving DecidableEq

/-- The record returned by the external tag analyzer (spec section 3,
LanguageTagIssue): the tag text, whether whitespace preceded it, and whether a
newline terminated the tag line.  Field names follow the accesses in the source
(`info.language`, `info.leading_spaces`, `info.terminal_newline`). -/
structure BadLanguage where
  language : String
  leading_spaces : Bool
  terminal_newline : Bool
deriving DecidableEq

/-- Modelled from the spec: the interface of the external collaborators
(spec section 6): the scanner, the two code-likeness classifiers and the tag
analyzer.  `find_code_blocks` returning `none` signals "a valid code block exists,
nothing to fix"; `some []` signals "no fenced blocks located at all". -/
structure Parsing where
  find_code_blocks : String → Option (List CodeBlock)
  is_repl_code : String → Bool
  is_python_code : String → Bool
  parse_bad_language : String → Option BadLanguage

/-- Python truthiness of an optional string: `None` and the empty string are falsy. -/
def truthy : Option String → Bool
  | none => false
  | some s => s != ""

/-- Replace the first occurrence of `pat` by `rep` in a character list, mirroring
Python `str.replace(pat, rep, 1)`. -/
def replaceFirstL (pat rep : List Char) : List Char → List Char
  | [] => if pat.isEmpty then rep else []
  | c :: rest =>
    if pat.isPrefixOf (c :: rest) then rep ++ (c :: rest).drop pat.length
    else c :: replaceFirstL pat rep rest

/-- String version of `replaceFirstL`: `s.replace(pat, rep, 1)` in Python. -/
def replaceFirstStr (s pat rep : String) : String :=
  String.mk (replaceFirstL pat.data rep.data s.data)

/-- Lower-case the first character of a string, mirroring
`s[0].lower() + s[1:]` (total variant; the source only reaches the indexing on
non-empty strings). -/
def lowerFirst (s : String) : String :=
  match s.data with
  | [] => ""
  | c :: cs => String.mk (c.toLower :: cs)

/-- `" ".join(lines)` from the source, on the concrete list built there. -/
def joinSp : List String → String
  | [] => ""
  | [x] => x
  | x :: y :: xs => x ++ (" " ++ joinSp (y :: xs))

/-- `language.lower()` from the source, character by character. -/
def strToLower (s : String) : String := String.mk (s.data.map Char.toLower)

/-- `_EXAMPLE_PY.format(lang=language)` from the source: the Python example body. -/
def _EXAMPLE_PY (lang : String) : String := lang ++ "\nprint(\x27Hello, world!\x27)"

/-- `_EXAMPLE_CODE_BLOCKS.format(content=content)` from the source: the escaped
"what to type" rendering followed by the live rendering. -/
def _EXAMPLE_CODE_BLOCKS (content : String) : String :=
  "\\`\\`\\`" ++ (content ++ ("\n\\`\\`\\`\n\n" ++
  ("**This will result in the following:**\n" ++
  ("```" ++ (content ++ "```")))))

/-- `_get_example(language)` from the source: an example of a correct code block
using `language` for syntax highlighting. -/
def _get_example (language : String) : String :=
  if PY_LANG_CODES.contains (strToLower language) then
    _EXAMPLE_CODE_BLOCKS (_EXAMPLE_PY language)
  else if language != "" then
    _EXAMPLE_CODE_BLOCKS (language ++ "\n...")
  else
    _EXAMPLE_CODE_BLOCKS "\nHello, world!"

/-- The escaped canonical fence `f"\\{BACKTICK}" * 3` from `_get_bad_ticks_message`. -/
def validTicks : String := "\\" ++ (BACKTICK ++ ("\\" ++ (BACKTICK ++ ("\\" ++ BACKTICK))))

/-- The first sentence built by `_get_bad_lang_message` when the tag had leading
whitespace. -/
def noSpacesSentence (language : String) : String :=
  "Make sure there are no spaces between the back ticks and `" ++ (language ++ "`.")

/-- The sentence built by `_get_bad_lang_message` when the tag line had no
terminating newline. -/
def newlineSentence (language : String) : String :=
  "Make sure you put your code on a new line following `" ++ (language ++ ("`. " ++
  ("There must not be any spaces after `" ++ (language ++ "`."))))

/-- The section header introducing the corrective example in
`_get_bad_ticks_message` and `_get_bad_lang_message`. -/
def exampleIntro : String := "\n\n**Here is an example of how it should look:**\n"

/-- `_get_bad_lang_message(content)` from the source: instructions on fixing a
Python language specifier, or `None` when the analyzer declines or finds no defect. -/
def _get_bad_lang_message (P : Parsing) (content : String) : Option String :=
  match P.parse_bad_language content with
  | none => none
  | some info =>
    match (if info.leading_spaces then [noSpacesSentence info.language] else []) ++
          (if info.terminal_newline then [] else [newlineSentence info.language]) with
    | [] => none
    | l :: ls =>
      some ("It looks like you incorrectly specified a language for your code block.\n\n" ++
        (joinSp (l :: ls) ++ (exampleIntro ++ _get_example info.language)))

/-- The constant message text of `_get_no_lang_message` (its value does not depend
on the inspected content). -/
def noLangText : String :=
  "It looks like you pasted Python code without syntax highlighting.\n\n" ++
  ("Please use syntax highlighting to improve the legibility of your code and make " ++
  ("it easier for us to help you.\n\n" ++
  ("**To do this, use the following method:**\n" ++ _get_example "python")))

/-- `_get_no_lang_message(content)` from the source: instructions on specifying a
language, produced only when the body looks like Python or REPL code. -/
def _get_no_lang_message (P : Parsing) (content : String) : Option String :=
  if P.is_repl_code content || P.is_python_code content then some noLangText
  else none

/-- The constant message text of `_get_no_ticks_message`. -/
def noTicksText : String :=
  "It looks like you\x27re trying to paste code into this channel.\n\n" ++
  ("Discord has support for Markdown, which allows you to post code with full " ++
  ("syntax highlighting. Please use these whenever you paste code, as this " ++
  ("helps improve the legibility and makes it easier for us to help you.\n\n" ++
  ("**To do this, use the following method:**\n" ++ _get_example "python"))))

/-- `_get_no_ticks_message(content)` from the source: instructions on using code
blocks at all, produced only when the whole text looks like Python or REPL code. -/
def _get_no_ticks_message (P : Parsing) (content : String) : Option String :=
  if P.is_repl_code content || P.is_python_code content then some noTicksText
  else none

/-- The second line of the fence-issue paragraph of `_get_bad_ticks_message`,
quoting the canonical and the wrong fence symbols. -/
def badTicksLine2 (cb : CodeBlock) : String :=
  "You seem to be using the wrong symbols to indicate where the code block should start. " ++
  ("The correct symbols would be " ++
   (validTicks ++ (", not `" ++ ((cb.tick ++ cb.tick ++ cb.tick) ++ "`."))))

/-- The fence-issue paragraph of `_get_bad_ticks_message` (the `instructions`
f-string of the source). -/
def badTicksIntro (cb : CodeBlock) : String :=
  "It looks like you are trying to paste code into this channel.\n\n" ++ badTicksLine2 cb

/-- `_get_bad_ticks_message(code_block)` from the source: instructions on using the
correct ticks, with the secondary language-specifier check appended either as a
"Furthermore" continuation or as an example section. -/
def _get_bad_ticks_message (P : Parsing) (cb : CodeBlock) : Option String :=
  match (if !truthy (_get_bad_lang_message P cb.content) && cb.language == "" then
           _get_no_lang_message P cb.content
         else _get_bad_lang_message P cb.content) with
  | some m =>
    if m == "" then
      some (badTicksIntro cb ++ (exampleIntro ++ _get_example cb.language))
    else
      some (badTicksIntro cb ++ ("\n\nFurthermore, " ++ lowerFirst (replaceFirstStr m "\n\n" " ")))
  | none =>
    some (badTicksIntro cb ++ (exampleIntro ++ _get_example cb.language))

/-- `get_instructions(content)` from the source: the sole entry point of the module. -/
def get_instructions (P : Parsing) (content : String) : Option String :=
  match P.find_code_blocks content with
  | none => none
  | some blocks =>
    if blocks.isEmpty then _get_no_ticks_message P content
    else
      match blocks.find? (fun b => b.tick != BACKTICK) with
      | some block => _get_bad_ticks_message P block
      | none =>
        match blocks.head? with
        | none => none
        | some block =>
          if truthy (_get_bad_lang_message P block.content) then
            _get_bad_lang_message P block.content
          else
            _get_no_lang_message P block.content

/-! ## Exception-instrumented model

The only operations of the source that can raise at all are the two index
expressions `addition_msg[0]` (in `_get_bad_ticks_message`) and `blocks[0]`
(in `get_instructions`).  The instrumented variants below model those indexings
as fallible (`Except`), exactly where the source performs them; every other
operation of the module is total.  Claim C9 states that the instrumented entry
point never returns an error. -/

/-- Python string indexing `s[i]`: raises `IndexError` when out of range. -/
def pyStrIndex (s : String) (i : Nat) : Except String Char :=
  match s.data.get? i with
  | some c => Except.ok c
  | none => Except.error "IndexError: string index out of range"

/-- Python list indexing `blocks[i]`: raises `IndexError` when out of range. -/
def pyListIndex (l : List CodeBlock) (i : Nat) : Except String CodeBlock :=
  match l.get? i with
  | some b => Except.ok b
  | none => Except.error "IndexError: list index out of range"

/-- `_get_bad_ticks_message` with the `addition_msg[0]` indexing made explicit. -/
def badTicksMessageE (P : Parsing) (cb : CodeBlock) : Except String (Option String) :=
  match (if !truthy (_get_bad_lang_message P cb.content) && cb.language == "" then
           _get_no_lang_message P cb.content
         else _get_bad_lang_message P cb.content) with
  | some m =>
    if m == "" then
      Except.ok (some (badTicksIntro cb ++ (exampleIntro ++ _get_example cb.language)))
    else
      match pyStrIndex (replaceFirstStr m "\n\n" " ") 0 with
      | Except.error e => Except.error e
      | Except.ok c =>
        Except.ok (some (badTicksIntro cb ++ ("\n\nFurthermore, " ++
          String.mk (c.toLower :: (replaceFirstStr m "\n\n" " ").data.drop 1))))
  | none =>
    Except.ok (some (badTicksIntro cb ++ (exampleIntro ++ _get_example cb.language)))

/-- `get_instructions` with the `blocks[0]` indexing made explicit. -/
def getInstructionsE (P : Parsing) (content : String) : Except String (Option String) :=
  match P.find_code_blocks content with
  | none => Except.ok none
  | some blocks =>
    if blocks.isEmpty then Except.ok (_get_no_ticks_message P content)
    else
      match blocks.find? (fun b => b.tick != BACKTICK) with
      | some block => badTicksMessageE P block
      | none =>
        match pyListIndex blocks 0 with
        | Except.error e => Except.error e
        | Except.ok block =>
          if truthy (_get_bad_lang_message P block.content) then
            Except.ok (_get_bad_lang_message P block.content)
          else
            Except.ok (_get_no_lang_message P block.content)

/-! ## Observation functions used by the theorem statements -/

/-- The first line of a string: its characters up to the first newline. -/
def firstLine (s : String) : String :=
  String.mk (s.data.takeWhile (fun c => c != '\n'))

/-- Whether `pat` occurs as a contiguous run inside `l`. -/
def listContains (pat : List Char) : List Char → Bool
  | [] => pat.isEmpty
  | c :: rest => pat.isPrefixOf (c :: rest) || listContains pat rest

/-- Whether `pat` occurs as a contiguous substring of `s`. -/
def containsStr (s pat : String) : Bool := listContains pat.data s.data

/-- Split a character list into its newline-separated lines. -/
def splitLinesL : List Char → List (List Char)
  | [] => [[]]
  | c :: rest =>
    match splitLinesL rest with
    | [] => [[]]
    | l :: ls => if c = '\n' then [] :: l :: ls else (c :: l) :: ls

/-- Whether a line is one of the two top-level section headers that introduce an
example in the produced messages. -/
def isSectionHeader (l : List Char) : Bool :=
  l == ("**Here is an example of how it should look:**" : String).data ||
  l == ("**To do this, use the following method:**" : String).data

/-- The number of lines of `l` that are a top-level example-section header. -/
def hlc (l : List Char) : Nat := (splitLinesL l).countP isSectionHeader

/-- The number of header lines of `l` when its first characters continue an
already-started line (the partial first line is not counted). -/
def hlcMid (l : List Char) : Nat := ((splitLinesL l).tail).countP isSectionHeader

/-- No newline occurs in the character list. -/
def noNl (l : List Char) : Prop := ∀ c ∈ l, c ≠ '\n'

instance (l : List Char) : Decidable (noNl l) := by
  unfold noNl
  infer_instance

/-! ## Concrete collaborator instances used for evaluation -/

/-- A collaborator instance whose scanner reports a valid block and whose
classifiers reject everything. -/
def trivialParsing : Parsing where
  find_code_blocks := fun _ => none
  is_repl_code := fun _ => false
  is_python_code := fun _ => false
  parse_bad_language := fun _ => none

/-- The first block handed to the advisor in the C2 scenario: correct fence,
non-empty language tag, Python-looking body. -/
def rubyBlock : CodeBlock where
  content := "print(\x27hi\x27)"
  language := "ruby"
  tick := "`"

/-- A collaborator instance whose scanner returns `rubyBlock` for every message,
whose Python classifier accepts everything, and whose tag analyzer declines. -/
def rubyScanParsing : Parsing where
  find_code_blocks := fun _ => some [rubyBlock]
  is_repl_code := fun _ => false
  is_python_code := fun _ => true
  parse_bad_language := fun _ => none

/-- A collaborator instance whose scanner finds zero blocks and whose Python
classifier accepts everything. -/
def zeroBlockParsing : Parsing where
  find_code_blocks := fun _ => some []
  is_repl_code := fun _ => false
  is_python_code := fun _ => true
  parse_bad_language := fun _ => none

/-- A collaborator instance whose tag analyzer always reports a Python tag written
with leading whitespace. -/
def spacedTagParsing : Parsing where
  find_code_blocks := fun _ => some []
  is_repl_code := fun _ => false
  is_python_code := fun _ => false
  parse_bad_language := fun _ => some { language := "py", leading_spaces := true, terminal_newline := true }

/-- A tilde-fenced block with an empty language tag, used to evaluate the
bad-fence advisor. -/
def tildeBlock : CodeBlock where
  content := "x = 1"
  language := ""
  tick := "~"

/-! ## Basic lemmas about the observation functions -/

theorem strSame (s t : String) (h : s.data = t.data) : s = t := String.ext h

theorem strNeOfDataCons (s : String) (c : Char) (r : List Char) (h : s.data = c :: r) :
    s ≠ "" := by
  intro h2
  rw [h2] at h
  exact List.noConfusion h

theorem ipo_refl (l : List Char) : l.isPrefixOf l = true := by
  induction l with
  | nil => rfl
  | cons c r ih => simp [List.isPrefixOf, ih]

theorem ipo_self_append (l t : List Char) : l.isPrefixOf (l ++ t) = true := by
  induction l with
  | nil => simp [List.isPrefixOf]
  | cons c r ih => simp [List.isPrefixOf, ih]

theorem ipo_append_same (p a b : List Char) :
    (p ++ a).isPrefixOf (p ++ b) = a.isPrefixOf b := by
  induction p with
  | nil => rfl
  | cons c r ih => simp [List.isPrefixOf, ih]

theorem ipo_extend (p l t : List Char) (h : p.isPrefixOf l = true) :
    p.isPrefixOf (l ++ t) = true := by
  induction p generalizing l with
  | nil => simp [List.isPrefixOf]
  | cons a ps ih =>
    cases l with
    | nil => exact absurd h (by simp [List.isPrefixOf])
    | cons b ls =>
      simp only [List.isPrefixOf, Bool.and_eq_true] at h
      simp [List.isPrefixOf, h.1, ih ls h.2]

theorem listContains_of_ipo (pat l : List Char) (h : pat.isPrefixOf l = true) :
    listContains pat l = true := by
  cases l with
  | nil =>
    cases pat with
    | nil => rfl
    | cons c r => exact absurd h (by simp [List.isPrefixOf])
  | cons c r => simp [listContains, h]

theorem listContains_cons (pat : List Char) (c : Char) (rest : List Char)
    (h : listContains pat rest = true) : listContains pat (c :: rest) = true := by
  simp [listContains, h]

theorem listContains_append_right (pat a b : List Char) (h : listContains pat b = true) :
    listContains pat (a ++ b) = true := by
  induction a with
  | nil => exact h
  | cons c r ih => exact listContains_cons pat c (r ++ b) ih

theorem listContains_append_left (pat a b : List Char) (h : listContains pat a = true) :
    listContains pat (a ++ b) = true := by
  induction a with
  | nil =>
    simp [listContains] at h
    subst h
    cases b with
    | nil => rfl
    | cons c r => simp [listContains, List.isPrefixOf]
  | cons c r ih =>
    simp only [listContains, Bool.or_eq_true] at h
    rcases h with h | h
    · exact listContains_of_ipo pat _ (ipo_extend _ _ b h)
    · exact listContains_cons pat c (r ++ b) (ih h)

theorem splitLinesL_ne_nil (l : List Char) : splitLinesL l ≠ [] := by
  induction l with
  | nil => simp [splitLinesL]
  | cons c r ih =>
    simp only [splitLinesL]
    cases h : splitLinesL r with
    | nil => simp
    | cons x xs =>
      by_cases hc : c = '\n' <;> simp [hc]

theorem splitLinesL_cons (c : Char) (r : List Char) :
    splitLinesL (c :: r) =
      match splitLinesL r with
      | [] => [[]]
      | l :: ls => if c = '\n' then [] :: l :: ls else (c :: l) :: ls := rfl

theorem splitLinesL_append_nl (a b : List Char) :
    splitLinesL (a ++ '\n' :: b) = splitLinesL a ++ splitLinesL b := by
  induction a with
  | nil =>
    cases h : splitLinesL b with
    | nil => exact absurd h (splitLinesL_ne_nil b)
    | cons x xs =>
      rw [List.nil_append, splitLinesL_cons, h]
      simp [show splitLinesL ([] : List Char) = [[]] from rfl]
  | cons c a2 ih =>
    cases h2 : splitLinesL a2 with
    | nil => exact absurd h2 (splitLinesL_ne_nil a2)
    | cons y ys =>
      rw [List.cons_append, splitLinesL_cons, ih, h2, List.cons_append,
        splitLinesL_cons, h2]
      by_cases hc : c = '\n' <;> simp [hc]

theorem splitLinesL_noNl (l : List Char) (h : noNl l) : splitLinesL l = [l] := by
  induction l with
  | nil => rfl
  | cons c r ih =>
    have hc : c ≠ '\n' := h c (by simp)
    have hr : noNl r := fun x hx => h x (by simp [hx])
    simp [splitLinesL, ih hr, hc]

theorem hlc_append_nl (a b : List Char) : hlc (a ++ '\n' :: b) = hlc a + hlc b := by
  simp [hlc, splitLinesL_append_nl, List.countP_append]

theorem hlc_noNl (l : List Char) (h : noNl l) :
    hlc l = if isSectionHeader l then 1 else 0 := by
  rw [hlc, splitLinesL_noNl l h]
  cases hh : isSectionHeader l <;> simp [List.countP_cons, hh]

theorem sectionHeader_star (l : List Char) (h : isSectionHeader l = true) :
    l.head? = some '*' := by
  simp only [isSectionHeader, Bool.or_eq_true, beq_iff_eq] at h
  rcases h with h | h <;> rw [h] <;> rfl

theorem sectionHeader_cons_ne (c : Char) (t : List Char) (h : c ≠ '*') :
    isSectionHeader (c :: t) = false := by
  cases hh : isSectionHeader (c :: t) with
  | false => rfl
  | true =>
    have := sectionHeader_star _ hh
    simp only [List.head?] at this
    exact absurd (Option.some.injEq .. ▸ this) (by simpa using h)

theorem hlc_line (l : List Char) (h : noNl l) (c : Char) (t : List Char)
    (hl : l = c :: t) (hc : c ≠ '*') : hlc l = 0 := by
  rw [hlc_noNl l h, hl, sectionHeader_cons_ne c t hc]
  rfl

theorem noNl_append (a b : List Char) (ha : noNl a) (hb : noNl b) : noNl (a ++ b) := by
  intro c hc
  rcases List.mem_append.mp hc with h | h
  · exact ha c h
  · exact hb c h

theorem takeWhile_append_all (p : Char → Bool) (a b : List Char)
    (h : ∀ c ∈ a, p c = true) : (a ++ b).takeWhile p = a ++ b.takeWhile p := by
  induction a with
  | nil => rfl
  | cons c r ih =>
    have hc := h c (by simp)
    simp [List.takeWhile_cons, hc, ih fun x hx => h x (by simp [hx])]

theorem takeWhile_append_stop (p : Char → Bool) (a : List Char) (x : Char) (b : List Char)
    (hx : p x = false) : (a ++ x :: b).takeWhile p = a.takeWhile p := by
  induction a with
  | nil => simp [List.takeWhile_cons, hx]
  | cons c r ih =>
    by_cases hc : p c = true
    · simp [List.takeWhile_cons, hc, ih]
    · simp only [Bool.not_eq_true] at hc
      simp [List.takeWhile_cons, hc]

theorem replaceFirstL_cons (pat rep : List Char) (c : Char) (rest : List Char) :
    replaceFirstL pat rep (c :: rest) =
      if pat.isPrefixOf (c :: rest) then rep ++ (c :: rest).drop pat.length
      else c :: replaceFirstL pat rep rest := rfl

theorem replaceFirstL_at (h : Char) (pt rep pre suf : List Char)
    (hpre : ∀ c ∈ pre, c ≠ h) :
    replaceFirstL (h :: pt) rep (pre ++ ((h :: pt) ++ suf)) = pre ++ (rep ++ suf) := by
  induction pre with
  | nil =>
    rw [List.nil_append, List.cons_append, replaceFirstL_cons]
    have hp : (h :: pt).isPrefixOf ((h :: pt) ++ suf) = true := ipo_self_append (h :: pt) suf
    rw [List.cons_append] at hp
    rw [if_pos hp, List.nil_append]
    have hd : (h :: (pt ++ suf)).drop (h :: pt).length = suf := by
      rw [List.length_cons, List.drop_succ_cons, List.drop_left]
    rw [hd]
  | cons c r ih =>
    have hc : c ≠ h := hpre c (by simp)
    rw [List.cons_append, replaceFirstL_cons]
    have hnp : (h :: pt).isPrefixOf (c :: (r ++ ((h :: pt) ++ suf))) = false := by
      simp [List.isPrefixOf, Ne.symm hc]
    rw [if_neg (by rw [hnp]; exact Bool.false_ne_true), List.cons_append]
    exact congrArg (List.cons c) (ih fun x hx => hpre x (by simp [hx]))

theorem replaceFirstL_ne_nil (pat rep s : List Char) (hs : s ≠ [])
    (hrep : rep ≠ []) : replaceFirstL pat rep s ≠ [] := by
  cases s with
  | nil => exact absurd rfl hs
  | cons c r =>
    rw [replaceFirstL]
    by_cases hp : pat.isPrefixOf (c :: r) = true
    · rw [if_pos hp]
      cases rep with
      | nil => exact absurd rfl hrep
      | cons a b => simp
    · rw [if_neg hp]
      simp

/-! ## Reduction helpers for the dispatcher -/

theorem listContains_self (l : List Char) : listContains l l = true :=
  listContains_of_ipo l l (ipo_refl l)

theorem noTicksText_ne_empty : noTicksText ≠ "" := by decide

theorem noLangText_ne_empty : noLangText ≠ "" := by decide

theorem find?_bad_first (pre : List CodeBlock) (b : CodeBlock) (post : List CodeBlock)
    (hpre : ∀ x ∈ pre, x.tick = BACKTICK) (hb : b.tick ≠ BACKTICK) :
    (pre ++ b :: post).find? (fun x => x.tick != BACKTICK) = some b := by
  induction pre with
  | nil =>
    rw [List.nil_append]
    exact List.find?_cons_of_pos _ (by simpa using hb)
  | cons q pre2 ih =>
    rw [List.cons_append]
    rw [List.find?_cons_of_neg _ (by simp [hpre q (List.mem_cons_self q pre2)])]
    exact ih fun x hx => hpre x (by simp [hx])

theorem find?_all_canonical (l : List CodeBlock) (h : ∀ x ∈ l, x.tick = BACKTICK) :
    l.find? (fun x => x.tick != BACKTICK) = none := by
  rw [List.find?_eq_none]
  intro x hx
  simp [h x hx]

theorem get_instructions_of_none (P : Parsing) (content : String)
    (h : P.find_code_blocks content = none) : get_instructions P content = none := by
  simp only [get_instructions, h]

theorem get_instructions_of_empty (P : Parsing) (content : String)
    (h : P.find_code_blocks content = some []) :
    get_instructions P content = _get_no_ticks_message P content := by
  simp only [get_instructions, h, List.isEmpty_nil, if_true]

theorem get_instructions_of_badtick (P : Parsing) (content : String)
    (blocks : List CodeBlock) (block : CodeBlock)
    (h : P.find_code_blocks content = some blocks)
    (hne : blocks.isEmpty = false)
    (hfind : blocks.find? (fun x => x.tick != BACKTICK) = some block) :
    get_instructions P content = _get_bad_ticks_message P block := by
  simp only [get_instructions, h, hne, hfind, Bool.false_eq_true, if_false]

theorem get_instructions_of_firstblock (P : Parsing) (content : String)
    (b : CodeBlock) (bs : List CodeBlock)
    (h : P.find_code_blocks content = some (b :: bs))
    (hfind : (b :: bs).find? (fun x => x.tick != BACKTICK) = none) :
    get_instructions P content =
      (if truthy (_get_bad_lang_message P b.content) then _get_bad_lang_message P b.content
       else _get_no_lang_message P b.content) := by
  simp only [get_instructions, h, hfind, List.isEmpty_cons, Bool.false_eq_true, if_false,
    List.head?_cons]

theorem containsStr_append_right (a b p : String) (h : containsStr b p = true) :
    containsStr (a ++ b) p = true := by
  unfold containsStr at h ⊢
  rw [String.data_append]
  exact listContains_append_right _ _ _ h

theorem containsStr_append_left (a b p : String) (h : containsStr a p = true) :
    containsStr (a ++ b) p = true := by
  unfold containsStr at h ⊢
  rw [String.data_append]
  exact listContains_append_left _ _ _ h

theorem containsStr_self (s : String) : containsStr s s = true := listContains_self s.data

theorem badTicks_some_ne (P : Parsing) (cb : CodeBlock) (m : String)
    (h : _get_bad_ticks_message P cb = some m) : m ≠ "" := by
  have hI : ∀ X : String, ∃ r, (badTicksIntro cb ++ X).data = 'I' :: r := fun X => ⟨_, rfl⟩
  unfold _get_bad_ticks_message at h
  cases ha : (if !truthy (_get_bad_lang_message P cb.content) && cb.language == "" then
      _get_no_lang_message P cb.content
    else _get_bad_lang_message P cb.content) with
  | none =>
    simp only [ha] at h
    obtain ⟨r, hr⟩ := hI (exampleIntro ++ _get_example cb.language)
    exact strNeOfDataCons m 'I' r (Option.some.inj h ▸ hr)
  | some s =>
    simp only [ha] at h
    by_cases hs : (s == "") = true
    · rw [if_pos hs] at h
      obtain ⟨r, hr⟩ := hI (exampleIntro ++ _get_example cb.language)
      exact strNeOfDataCons m 'I' r (Option.some.inj h ▸ hr)
    · rw [if_neg hs] at h
      obtain ⟨r, hr⟩ :=
        hI ("\n\nFurthermore, " ++ lowerFirst (replaceFirstStr s "\n\n" " "))
      exact strNeOfDataCons m 'I' r (Option.some.inj h ▸ hr)

/-! ## The claims -/

/-- Claim C8: `get_instructions` is a pure function of its input: the embedding of
the module has no state at all, so two calls on the same text and the same
collaborator instance denote the same value. -/
theorem claim_C8_deterministic (P : Parsing) (content : String) :
    get_instructions P content = get_instructions P content := rfl

/-- Claim C1: the dispatcher follows the strict priority order: scanner says all
valid (result `none`) gives no message; zero blocks delegates to the missing-fence
advisor; a first wrongly fenced block (all blocks before it canonical) delegates to
the bad-fence advisor on that block; otherwise the first scanned block alone is
analyzed, the malformed-language advisor first and the missing-language advisor
exactly when the former yields nothing. -/
theorem claim_C1_priority (P : Parsing) (content : String) :
    (P.find_code_blocks content = none → get_instructions P content = none) ∧
    (P.find_code_blocks content = some [] →
      get_instructions P content = _get_no_ticks_message P content) ∧
    (∀ pre b post, P.find_code_blocks content = some (pre ++ b :: post) →
      (∀ x ∈ pre, x.tick = BACKTICK) → b.tick ≠ BACKTICK →
      get_instructions P content = _get_bad_ticks_message P b) ∧
    (∀ b rest, P.find_code_blocks content = some (b :: rest) →
      (∀ x ∈ b :: rest, x.tick = BACKTICK) →
      (truthy (_get_bad_lang_message P b.content) = true →
        get_instructions P content = _get_bad_lang_message P b.content) ∧
      (truthy (_get_bad_lang_message P b.content) = false →
        get_instructions P content = _get_no_lang_message P b.content)) := by
  refine ⟨get_instructions_of_none P content, get_instructions_of_empty P content, ?_, ?_⟩
  · intro pre b post h hpre hb
    have hne : (pre ++ b :: post).isEmpty = false := by cases pre <;> rfl
    exact get_instructions_of_badtick P content _ b h hne (find?_bad_first pre b post hpre hb)
  · intro b rest h hticks
    have hmain := get_instructions_of_firstblock P content b rest h
      (find?_all_canonical (b :: rest) hticks)
    constructor
    · intro ht; rw [hmain, if_pos ht]
    · intro ht; rw [hmain, if_neg (by rw [ht]; exact Bool.false_ne_true)]

/-- Witness for C1: with a scanner that reports a valid block, the dispatcher
returns nothing on a concrete message. -/
theorem claim_C1_priority_witness : get_instructions trivialParsing "print(1)" = none :=
  (claim_C1_priority trivialParsing "print(1)").1 rfl

/-- Counterexample to claim C2: a spec-conformant scanner output whose first (and
only) block has the correct fence and a non-empty language tag, yet the
dispatcher's fall-through produces the missing-language message, because the
dispatcher never consults the first block's language tag on that path. -/
theorem claim_C2_counterexample :
    rubyScanParsing.find_code_blocks "print(\x27hi\x27)" = some [rubyBlock] ∧
    rubyBlock.tick = BACKTICK ∧
    rubyBlock.language ≠ "" ∧
    _get_no_lang_message rubyScanParsing rubyBlock.content = some noLangText ∧
    get_instructions rubyScanParsing "print(\x27hi\x27)" = some noLangText := by
  exact ⟨rfl, rfl, by decide, rfl, rfl⟩

/-- Claim C2 (amended): when no bad-fence block exists, the dispatcher falls
through to the missing-language advisor on the first block whenever the
malformed-language advisor yields nothing, regardless of whether that block's
language tag is empty; the advisor itself checks only whether the block body looks
like Python code. -/
theorem claim_C2_amended (P : Parsing) (content : String) (b : CodeBlock)
    (rest : List CodeBlock) (h : P.find_code_blocks content = some (b :: rest))
    (hticks : ∀ x ∈ b :: rest, x.tick = BACKTICK)
    (hfall : truthy (_get_bad_lang_message P b.content) = false) :
    get_instructions P content = _get_no_lang_message P b.content := by
  rw [get_instructions_of_firstblock P content b rest h
    (find?_all_canonical (b :: rest) hticks)]
  rw [if_neg (by rw [hfall]; exact Bool.false_ne_true)]

/-- Witness for amended C2: the fall-through happens on a concrete block whose
language tag is the non-empty string ruby. -/
theorem claim_C2_amended_witness :
    get_instructions rubyScanParsing "x" =
      _get_no_lang_message rubyScanParsing rubyBlock.content :=
  claim_C2_amended rubyScanParsing "x" rubyBlock [] rfl (by decide) rfl

/-- Claim C6: on text in which the scanner finds zero blocks, the dispatcher
returns a non-empty message containing the Python-tagged example exactly when the
code-likeness classifier accepts the whole text, and returns nothing otherwise. -/
theorem claim_C6_no_fence (P : Parsing) (content : String)
    (h : P.find_code_blocks content = some []) :
    ((P.is_repl_code content || P.is_python_code content) = true →
      ∃ m, get_instructions P content = some m ∧ m ≠ "" ∧
        containsStr m (_get_example "python") = true) ∧
    ((P.is_repl_code content || P.is_python_code content) = false →
      get_instructions P content = none) := by
  rw [get_instructions_of_empty P content h]
  constructor
  · intro hc
    refine ⟨noTicksText, ?_, noTicksText_ne_empty, ?_⟩
    · rw [_get_no_ticks_message, if_pos hc]
    · unfold noTicksText
      exact containsStr_append_right _ _ _ (containsStr_append_right _ _ _
        (containsStr_append_right _ _ _ (containsStr_append_right _ _ _
        (containsStr_append_right _ _ _ (containsStr_self _)))))
  · intro hc
    rw [_get_no_ticks_message, if_neg (by rw [hc]; exact Bool.false_ne_true)]

/-- Witness for C6: a scanner that finds zero blocks plus a classifier accepting
the text produce a non-empty message with the Python example on concrete input. -/
theorem claim_C6_no_fence_witness :
    ∃ m, get_instructions zeroBlockParsing "print(\x27hi\x27)" = some m ∧ m ≠ "" ∧
      containsStr m (_get_example "python") = true :=
  (claim_C6_no_fence zeroBlockParsing "print(\x27hi\x27)" rfl).1 rfl

/-- Claim C10: the dispatcher never returns the empty string: every produced
message is non-empty, so absence of advice is always the distinct value `none`. -/
theorem claim_C10_never_empty (P : Parsing) (content m : String)
    (h : get_instructions P content = some m) : m ≠ "" := by
  cases hf : P.find_code_blocks content with
  | none => rw [get_instructions_of_none P content hf] at h; exact Option.noConfusion h
  | some blocks =>
    cases blocks with
    | nil =>
      rw [get_instructions_of_empty P content hf] at h
      rw [_get_no_ticks_message] at h
      by_cases hc : (P.is_repl_code content || P.is_python_code content) = true
      · rw [if_pos hc] at h
        exact Option.some.inj h ▸ noTicksText_ne_empty
      · rw [if_neg hc] at h; exact Option.noConfusion h
    | cons b bs =>
      cases hfind : (b :: bs).find? (fun x => x.tick != BACKTICK) with
      | some block =>
        rw [get_instructions_of_badtick P content (b :: bs) block hf rfl hfind] at h
        exact badTicks_some_ne P block m h
      | none =>
        rw [get_instructions_of_firstblock P content b bs hf hfind] at h
        by_cases ht : truthy (_get_bad_lang_message P b.content) = true
        · rw [if_pos ht] at h
          cases hbl : _get_bad_lang_message P b.content with
          | none => rw [hbl] at h; exact Option.noConfusion h
          | some s =>
            rw [hbl] at h
            rw [hbl] at ht
            have hm : s = m := Option.some.inj h
            subst hm
            simpa [truthy] using ht
        · rw [if_neg ht] at h
          rw [_get_no_lang_message] at h
          by_cases hc : (P.is_repl_code b.content || P.is_python_code b.content) = true
          · rw [if_pos hc] at h
            exact Option.some.inj h ▸ noLangText_ne_empty
          · rw [if_neg hc] at h; exact Option.noConfusion h

/-- Witness for C10: a concretely produced message is non-empty. -/
theorem claim_C10_never_empty_witness : noLangText ≠ "" :=
  claim_C10_never_empty rubyScanParsing "x" noLangText rfl

theorem data_mk (l : List Char) : (String.mk l).data = l := rfl

theorem takeWhile_append_stop2 (p : Char → Bool) (a : List Char) (x : Char)
    (c b : List Char) (hx : p x = false) :
    (a ++ ((x :: c) ++ b)).takeWhile p = a.takeWhile p := by
  rw [List.cons_append]
  exact takeWhile_append_stop p a x (c ++ b) hx

/-- Counterexample to claim C3: for the non-empty, non-alias language Ruby, the
first line of the generated example is not the language string itself (it carries
the escaped-fence markup in front). -/
theorem claim_C3_counterexample :
    ("Ruby" : String) ≠ "" ∧ strToLower "Ruby" ∉ PY_LANG_CODES ∧
    firstLine (_get_example "Ruby") ≠ "Ruby" := by
  refine ⟨by decide, by decide, by decide⟩

/-- Claim C3 (amended): for every non-empty language string that is not a
recognized Python alias (case-insensitively), the first line of the generated
example equals the escaped opening fence followed by the first line of the
language string (the whole string when it has no newline), case preserved. -/
theorem claim_C3_amended (language : String) (h1 : language ≠ "")
    (h2 : strToLower language ∉ PY_LANG_CODES) :
    firstLine (_get_example language) = "\\`\\`\\`" ++ firstLine language := by
  have hc : PY_LANG_CODES.contains (strToLower language) = false := by simpa using h2
  have hb : (language != "") = true := by simpa using h1
  unfold _get_example
  rw [hc]
  simp only [Bool.false_eq_true, if_false]
  rw [hb]
  simp only [if_true]
  apply strSame
  rw [show (firstLine (_EXAMPLE_CODE_BLOCKS (language ++ "\n..."))).data =
    ((_EXAMPLE_CODE_BLOCKS (language ++ "\n...")).data).takeWhile (fun c => c != '\n')
    from rfl]
  rw [show ("\\`\\`\\`" ++ firstLine language).data =
    ("\\`\\`\\`" : String).data ++ language.data.takeWhile (fun c => c != '\n') from rfl]
  rw [show (_EXAMPLE_CODE_BLOCKS (language ++ "\n...")).data =
    ("\\`\\`\\`" : String).data ++ ((language.data ++ ('\n' :: ("..." : String).data)) ++
      ("\n\\`\\`\\`\n\n" ++ ("**This will result in the following:**\n" ++
        ("```" ++ ((language ++ "\n...") ++ "```")))).data) from rfl]
  rw [takeWhile_append_all _ ("\\`\\`\\`" : String).data _ (by decide)]
  congr 1
  rw [List.append_assoc]
  exact takeWhile_append_stop2 _ language.data '\n' _ _ (by decide)

/-- Witness for amended C3: evaluated at the concrete language Ruby. -/
theorem claim_C3_amended_witness :
    firstLine (_get_example "Ruby") = "\\`\\`\\`" ++ firstLine "Ruby" :=
  claim_C3_amended "Ruby" (by decide) (by decide)

theorem badTicksE_ok (P : Parsing) (cb : CodeBlock) :
    badTicksMessageE P cb = Except.ok (_get_bad_ticks_message P cb) := by
  unfold badTicksMessageE _get_bad_ticks_message
  cases ha : (if !truthy (_get_bad_lang_message P cb.content) && cb.language == "" then
      _get_no_lang_message P cb.content
    else _get_bad_lang_message P cb.content) with
  | none => rfl
  | some s =>
    dsimp only []
    by_cases hs : (s == "") = true
    · rw [if_pos hs, if_pos hs]
    · rw [if_neg hs, if_neg hs]
      have hne : s ≠ "" := by simpa using hs
      have hdne : s.data ≠ [] := fun hd => hne (strSame s "" hd)
      have hrne : (replaceFirstStr s "\n\n" " ").data ≠ [] := by
        rw [replaceFirstStr, data_mk]
        exact replaceFirstL_ne_nil _ _ _ hdne (by decide)
      cases hdd : (replaceFirstStr s "\n\n" " ").data with
      | nil => exact absurd hdd hrne
      | cons c r =>
        have hidx : pyStrIndex (replaceFirstStr s "\n\n" " ") 0 = Except.ok c := by
          unfold pyStrIndex
          rw [hdd]
          rfl
        have hlf : lowerFirst (replaceFirstStr s "\n\n" " ") = String.mk (c.toLower :: r) := by
          unfold lowerFirst
          rw [hdd]
        rw [hidx, hlf]
        rfl

/-- Claim C9: totality of the entry point over arbitrary input.  The only partial
operations the source performs are the two indexings `addition_msg[0]` and
`blocks[0]`; the instrumented model `getInstructionsE` makes them fallible, and on
every input and every collaborator instance it returns `Except.ok` of the total
model's value, never an error. -/
theorem claim_C9_total (P : Parsing) (content : String) :
    getInstructionsE P content = Except.ok (get_instructions P content) := by
  unfold getInstructionsE get_instructions
  cases hf : P.find_code_blocks content with
  | none => rfl
  | some blocks =>
    dsimp only []
    by_cases he : blocks.isEmpty = true
    · rw [if_pos he, if_pos he]
    · rw [if_neg he, if_neg he]
      cases hfind : blocks.find? (fun x => x.tick != BACKTICK) with
      | some block => exact badTicksE_ok P block
      | none =>
        dsimp only []
        cases blocks with
        | nil => exact absurd rfl he
        | cons b bs =>
          rw [show pyListIndex (b :: bs) 0 = Except.ok b from rfl]
          rw [show (b :: bs).head? = some b from rfl]
          dsimp only []
          by_cases ht : truthy (_get_bad_lang_message P b.content) = true
          · rw [if_pos ht, if_pos ht]
          · rw [if_neg ht, if_neg ht]

theorem strAppend_assoc (a b c : String) : (a ++ b) ++ c = a ++ (b ++ c) := by
  apply strSame
  simp [String.data_append, List.append_assoc]

/-- Claim C7: the malformed-language-tag advisor produces nothing when the tag
analyzer reports no record, and nothing when the record sets neither the
leading-whitespace flag nor clears the trailing-newline flag; when at least one
flag applies it produces a message containing the corresponding instruction
sentences cumulatively, ending with the generated example for the detected tag
language. -/
theorem claim_C7_badlang (P : Parsing) (content : String) :
    (P.parse_bad_language content = none → _get_bad_lang_message P content = none) ∧
    (∀ info, P.parse_bad_language content = some info →
      ((info.leading_spaces = false ∧ info.terminal_newline = true) →
        _get_bad_lang_message P content = none) ∧
      ((info.leading_spaces = true ∨ info.terminal_newline = false) →
        ∃ m, _get_bad_lang_message P content = some m ∧
          (info.leading_spaces = true →
            containsStr m (noSpacesSentence info.language) = true) ∧
          (info.terminal_newline = false →
            containsStr m (newlineSentence info.language) = true) ∧
          ∃ pre, m = pre ++ _get_example info.language)) := by
  constructor
  · intro h
    unfold _get_bad_lang_message
    rw [h]
  · intro info h
    cases hls : info.leading_spaces <;> cases htn : info.terminal_newline
    · -- leading_spaces = false, terminal_newline = false
      have hm0 : _get_bad_lang_message P content =
          some ("It looks like you incorrectly specified a language for your code block.\n\n" ++
            (newlineSentence info.language ++ (exampleIntro ++ _get_example info.language))) := by
        unfold _get_bad_lang_message
        rw [h]
        dsimp only []
        rw [hls, htn]
        rfl
      refine ⟨fun hcontra => absurd hcontra.2 (by decide), fun _ => ?_⟩
      refine ⟨_, hm0, fun hcontra => absurd hcontra (by decide), fun _ => ?_, ?_⟩
      · exact containsStr_append_right _ _ _
          (containsStr_append_left _ _ _ (containsStr_self _))
      · refine ⟨"It looks like you incorrectly specified a language for your code block.\n\n" ++
          (newlineSentence info.language ++ exampleIntro), ?_⟩
        rw [strAppend_assoc, strAppend_assoc]
    · -- leading_spaces = false, terminal_newline = true
      have hm0 : _get_bad_lang_message P content = none := by
        unfold _get_bad_lang_message
        rw [h]
        dsimp only []
        rw [hls, htn]
        rfl
      refine ⟨fun _ => hm0, fun hor => ?_⟩
      rcases hor with h2 | h2 <;> exact absurd h2 (by decide)
    · -- leading_spaces = true, terminal_newline = false
      have hm0 : _get_bad_lang_message P content =
          some ("It looks like you incorrectly specified a language for your code block.\n\n" ++
            ((noSpacesSentence info.language ++ (" " ++ newlineSentence info.language)) ++
              (exampleIntro ++ _get_example info.language))) := by
        unfold _get_bad_lang_message
        rw [h]
        dsimp only []
        rw [hls, htn]
        rfl
      refine ⟨fun hcontra => absurd hcontra.1 (by decide), fun _ => ?_⟩
      refine ⟨_, hm0, fun _ => ?_, fun _ => ?_, ?_⟩
      · exact containsStr_append_right _ _ _
          (containsStr_append_left _ _ _ (containsStr_append_left _ _ _ (containsStr_self _)))
      · exact containsStr_append_right _ _ _ (containsStr_append_left _ _ _
          (containsStr_append_right _ _ _ (containsStr_append_right _ _ _ (containsStr_self _))))
      · refine ⟨"It looks like you incorrectly specified a language for your code block.\n\n" ++
          ((noSpacesSentence info.language ++ (" " ++ newlineSentence info.language)) ++
            exampleIntro), ?_⟩
        apply strSame
        simp [String.data_append, List.append_assoc]
    · -- leading_spaces = true, terminal_newline = true
      have hm0 : _get_bad_lang_message P content =
          some ("It looks like you incorrectly specified a language for your code block.\n\n" ++
            (noSpacesSentence info.language ++ (exampleIntro ++ _get_example info.language))) := by
        unfold _get_bad_lang_message
        rw [h]
        dsimp only []
        rw [hls, htn]
        rfl
      refine ⟨fun hcontra => absurd hcontra.1 (by decide), fun _ => ?_⟩
      refine ⟨_, hm0, fun _ => ?_, fun hcontra => absurd hcontra (by decide), ?_⟩
      · exact containsStr_append_right _ _ _
          (containsStr_append_left _ _ _ (containsStr_self _))
      · refine ⟨"It looks like you incorrectly specified a language for your code block.\n\n" ++
          (noSpacesSentence info.language ++ exampleIntro), ?_⟩
        rw [strAppend_assoc, strAppend_assoc]

/-- Witness for C7: a concrete analyzer record with the leading-whitespace flag
set yields the corresponding message on concrete content. -/
theorem claim_C7_badlang_witness :
    ∃ m, _get_bad_lang_message spacedTagParsing " py\nx" = some m ∧
      containsStr m (noSpacesSentence "py") = true ∧
      ∃ pre, m = pre ++ _get_example "py" := by
  obtain ⟨m, hm, hc1, _, hpre⟩ :=
    ((claim_C7_badlang spacedTagParsing " py\nx").2
      { language := "py", leading_spaces := true, terminal_newline := true } rfl).2
      (Or.inl rfl)
  exact ⟨m, hm, hc1 rfl, hpre⟩

/-- Claim C4: on a block with a non-canonical fence, the bad-fence advisor runs the
malformed-language check on the block body first; a missing-language check happens
only when that is negative (and the block has no tag at all, so that a
missing-language issue can exist).  A found secondary issue is appended as a
"Furthermore" continuation, first double line break collapsed to a space and first
letter lower-cased; otherwise the example block for the block's language is
appended instead. -/
theorem claim_C4_composition (P : Parsing) (cb : CodeBlock) (htick : cb.tick ≠ BACKTICK) :
    (∀ m, _get_bad_lang_message P cb.content = some m → m ≠ "" →
      _get_bad_ticks_message P cb =
        some (badTicksIntro cb ++ ("\n\nFurthermore, " ++
          lowerFirst (replaceFirstStr m "\n\n" " ")))) ∧
    (truthy (_get_bad_lang_message P cb.content) = false → cb.language = "" →
      ∀ m, _get_no_lang_message P cb.content = some m →
      _get_bad_ticks_message P cb =
        some (badTicksIntro cb ++ ("\n\nFurthermore, " ++
          lowerFirst (replaceFirstStr m "\n\n" " ")))) ∧
    (truthy (_get_bad_lang_message P cb.content) = false →
      (cb.language ≠ "" ∨ _get_no_lang_message P cb.content = none) →
      _get_bad_ticks_message P cb =
        some (badTicksIntro cb ++ (exampleIntro ++ _get_example cb.language))) := by
  refine ⟨?_, ?_, ?_⟩
  · intro m hm hmne
    have ht : truthy (_get_bad_lang_message P cb.content) = true := by
      rw [hm]
      simpa [truthy] using hmne
    unfold _get_bad_ticks_message
    rw [show (if !truthy (_get_bad_lang_message P cb.content) && cb.language == "" then
        _get_no_lang_message P cb.content
      else _get_bad_lang_message P cb.content) = _get_bad_lang_message P cb.content from by
        rw [ht]
        rfl]
    rw [hm]
    dsimp only []
    rw [if_neg (by simpa using hmne)]
  · intro ht hlang m hm
    have hcond : (!truthy (_get_bad_lang_message P cb.content) && cb.language == "") = true := by
      rw [ht, hlang]
      rfl
    have hmne : m ≠ "" := by
      unfold _get_no_lang_message at hm
      by_cases hc : (P.is_repl_code cb.content || P.is_python_code cb.content) = true
      · rw [if_pos hc] at hm
        exact Option.some.inj hm ▸ noLangText_ne_empty
      · rw [if_neg hc] at hm
        exact absurd hm (by simp)
    unfold _get_bad_ticks_message
    rw [if_pos hcond, hm]
    dsimp only []
    rw [if_neg (by simpa using hmne)]
  · intro ht hor
    cases hcond : (!truthy (_get_bad_lang_message P cb.content) && cb.language == "") with
    | true =>
      have hl : cb.language = "" := by
        have h2 := (Bool.and_eq_true _ _).mp hcond
        simpa using h2.2
      have hnl : _get_no_lang_message P cb.content = none := by
        rcases hor with h2 | h2
        · exact absurd hl h2
        · exact h2
      unfold _get_bad_ticks_message
      rw [if_pos hcond, hnl]
    | false =>
      unfold _get_bad_ticks_message
      rw [if_neg (by rw [hcond]; exact Bool.false_ne_true)]
      cases hbl : _get_bad_lang_message P cb.content with
      | none => rfl
      | some s =>
        rw [hbl] at ht
        have hs : (s == "") = true := by
          simp only [truthy, bne_eq_false_iff_eq] at ht
          simpa using ht
        dsimp only []
        rw [if_pos hs]

/-- Witness for C4: on a concrete tilde-fenced block with no secondary issue the
advisor appends the example section. -/
theorem claim_C4_composition_witness :
    _get_bad_ticks_message trivialParsing tildeBlock =
      some (badTicksIntro tildeBlock ++ (exampleIntro ++ _get_example tildeBlock.language)) :=
  (claim_C4_composition trivialParsing tildeBlock (by decide)).2.2 rfl (Or.inr rfl)

/-! ## Line-walk lemmas for counting example sections -/

theorem splitLinesL_noNl_cons (x b : List Char) (hx : noNl x) (h : List Char)
    (t : List (List Char)) (hb : splitLinesL b = h :: t) :
    splitLinesL (x ++ b) = (x ++ h) :: t := by
  induction x with
  | nil => simpa using hb
  | cons c x2 ih =>
    have hc : c ≠ '\n' := hx c (by simp)
    have hx2 : noNl x2 := fun y hy => hx y (by simp [hy])
    rw [List.cons_append, splitLinesL_cons, ih hx2, List.cons_append]
    simp [hc]

theorem hlc_nil_z : hlc ([] : List Char) = 0 := by decide

theorem hlc_cons_nl (b : List Char) : hlc ('\n' :: b) = hlc b := by
  have h := hlc_append_nl [] b
  rw [List.nil_append] at h
  rw [h, hlc_nil_z]
  simp

theorem hlc_start_line (x b : List Char) (hx : noNl x) (c : Char)
    (hc : x.head? = some c) (hstar : c ≠ '*') : hlc (x ++ b) = hlcMid b := by
  cases hsb : splitLinesL b with
  | nil => exact absurd hsb (splitLinesL_ne_nil b)
  | cons h t =>
    cases x with
    | nil => exact absurd hc (by simp)
    | cons c0 x2 =>
      have hc0 : c0 = c := by simpa using hc
      subst hc0
      rw [hlc, hlcMid, splitLinesL_noNl_cons (c0 :: x2) b hx h t hsb, hsb]
      rw [List.countP_cons, List.cons_append, sectionHeader_cons_ne c0 _ hstar]
      simp

theorem hlcMid_append (x b : List Char) (hx : noNl x) : hlcMid (x ++ b) = hlcMid b := by
  cases hsb : splitLinesL b with
  | nil => exact absurd hsb (splitLinesL_ne_nil b)
  | cons h t =>
    rw [hlcMid, hlcMid, splitLinesL_noNl_cons x b hx h t hsb, hsb]
    rfl

theorem hlcMid_cons (c : Char) (b : List Char) (hc : c ≠ '\n') :
    hlcMid (c :: b) = hlcMid b := by
  have h : (c :: b) = [c] ++ b := rfl
  rw [h]
  exact hlcMid_append [c] b (fun y hy => by
    rw [List.mem_singleton] at hy
    rw [hy]
    exact hc)

theorem hlcMid_nl (b : List Char) : hlcMid ('\n' :: b) = hlc b := by
  cases hsb : splitLinesL b with
  | nil => exact absurd hsb (splitLinesL_ne_nil b)
  | cons h t =>
    rw [hlcMid, splitLinesL_cons, hsb]
    simp [hlc, hsb]

theorem hlcMid_noNl (x : List Char) (hx : noNl x) : hlcMid x = 0 := by
  rw [hlcMid, splitLinesL_noNl x hx]
  rfl

theorem hlc_line_cut (x b : List Char) (hx : noNl x) (hh : isSectionHeader x = false) :
    hlc (x ++ '\n' :: b) = hlc b := by
  rw [hlc_append_nl, hlc_noNl x hx, hh]
  simp

theorem hlc_header_line_cut (x b : List Char) (hx : noNl x)
    (hh : isSectionHeader x = true) : hlc (x ++ '\n' :: b) = 1 + hlc b := by
  rw [hlc_append_nl, hlc_noNl x hx, hh]
  simp

theorem hlc_cons_start (c : Char) (l : List Char) (hstar : c ≠ '*') (hnl : c ≠ '\n') :
    hlc (c :: l) = hlcMid l := by
  have h : (c :: l) = [c] ++ l := rfl
  rw [h]
  exact hlc_start_line [c] l
    (fun y hy => by rw [List.mem_singleton] at hy; rw [hy]; exact hnl) c rfl hstar

theorem hlc_example (lang : String) (h : noNl lang.data) :
    hlc (_get_example lang).data = 0 := by
  unfold _get_example
  by_cases hpy : PY_LANG_CODES.contains (strToLower lang) = true
  · rw [if_pos hpy]
    rw [show (_EXAMPLE_CODE_BLOCKS (_EXAMPLE_PY lang)).data =
      '\\' :: '`' :: '\\' :: '`' :: '\\' :: '`' ::
        ((lang.data ++ ('\n' :: ("print(\x27Hello, world!\x27)" : String).data)) ++
          ('\n' :: '\\' :: '`' :: '\\' :: '`' :: '\\' :: '`' :: '\n' :: '\n' ::
            (("**This will result in the following:**" : String).data ++
              ('\n' :: '`' :: '`' :: '`' ::
                ((lang.data ++ ('\n' :: ("print(\x27Hello, world!\x27)" : String).data)) ++
                  ('`' :: '`' :: '`' :: [])))))) from rfl]
    rw [hlc_cons_start _ _ (by decide) (by decide)]
    rw [hlcMid_cons _ _ (by decide), hlcMid_cons _ _ (by decide), hlcMid_cons _ _ (by decide),
      hlcMid_cons _ _ (by decide), hlcMid_cons _ _ (by decide)]
    rw [List.append_assoc, List.cons_append]
    rw [hlcMid_append _ _ h, hlcMid_nl]
    rw [hlc_start_line _ _ (by decide) 'p' (by decide) (by decide)]
    rw [hlcMid_nl]
    rw [hlc_cons_start _ _ (by decide) (by decide)]
    rw [hlcMid_cons _ _ (by decide), hlcMid_cons _ _ (by decide), hlcMid_cons _ _ (by decide),
      hlcMid_cons _ _ (by decide), hlcMid_cons _ _ (by decide)]
    rw [hlcMid_nl, hlc_cons_nl]
    rw [hlc_line_cut _ _ (by decide) (by decide)]
    rw [hlc_cons_start _ _ (by decide) (by decide)]
    rw [hlcMid_cons _ _ (by decide), hlcMid_cons _ _ (by decide)]
    rw [List.append_assoc, List.cons_append]
    rw [hlcMid_append _ _ h, hlcMid_nl]
    rw [hlc_start_line _ _ (by decide) 'p' (by decide) (by decide)]
    rw [hlcMid_noNl _ (by decide)]
  · rw [if_neg hpy]
    by_cases hbe : (lang != "") = true
    · rw [if_pos hbe]
      rw [show (_EXAMPLE_CODE_BLOCKS (lang ++ "\n...")).data =
        '\\' :: '`' :: '\\' :: '`' :: '\\' :: '`' ::
          ((lang.data ++ ('\n' :: ("..." : String).data)) ++
            ('\n' :: '\\' :: '`' :: '\\' :: '`' :: '\\' :: '`' :: '\n' :: '\n' ::
              (("**This will result in the following:**" : String).data ++
                ('\n' :: '`' :: '`' :: '`' ::
                  ((lang.data ++ ('\n' :: ("..." : String).data)) ++
                    ('`' :: '`' :: '`' :: [])))))) from rfl]
      rw [hlc_cons_start _ _ (by decide) (by decide)]
      rw [hlcMid_cons _ _ (by decide), hlcMid_cons _ _ (by decide), hlcMid_cons _ _ (by decide),
        hlcMid_cons _ _ (by decide), hlcMid_cons _ _ (by decide)]
      rw [List.append_assoc, List.cons_append]
      rw [hlcMid_append _ _ h, hlcMid_nl]
      rw [hlc_start_line _ _ (by decide) '.' (by decide) (by decide)]
      rw [hlcMid_nl]
      rw [hlc_cons_start _ _ (by decide) (by decide)]
      rw [hlcMid_cons _ _ (by decide), hlcMid_cons _ _ (by decide), hlcMid_cons _ _ (by decide),
        hlcMid_cons _ _ (by decide), hlcMid_cons _ _ (by decide)]
      rw [hlcMid_nl, hlc_cons_nl]
      rw [hlc_line_cut _ _ (by decide) (by decide)]
      rw [hlc_cons_start _ _ (by decide) (by decide)]
      rw [hlcMid_cons _ _ (by decide), hlcMid_cons _ _ (by decide)]
      rw [List.append_assoc, List.cons_append]
      rw [hlcMid_append _ _ h, hlcMid_nl]
      rw [hlc_start_line _ _ (by decide) '.' (by decide) (by decide)]
      rw [hlcMid_noNl _ (by decide)]
    · rw [if_neg hbe]
      decide

theorem hlc_badTicksIntro_cut (cb : CodeBlock) (ht : noNl cb.tick.data) (Z : List Char) :
    hlc ((badTicksIntro cb).data ++ ('\n' :: '\n' :: Z)) = hlc Z := by
  rw [show (badTicksIntro cb).data ++ ('\n' :: '\n' :: Z) =
    ("It looks like you are trying to paste code into this channel." : String).data ++
      ('\n' :: '\n' ::
        (("You seem to be using the wrong symbols to indicate where the code block should start. The correct symbols would be \\`\\`\\`, not `" : String).data ++
          ((((cb.tick.data ++ cb.tick.data) ++ cb.tick.data) ++ ('`' :: '.' :: [])) ++
            ('\n' :: '\n' :: Z)))) from rfl]
  rw [hlc_start_line _ _ (by decide) 'I' (by decide) (by decide)]
  rw [hlcMid_nl, hlc_cons_nl]
  rw [hlc_start_line _ _ (by decide) 'Y' (by decide) (by decide)]
  rw [List.append_assoc]
  rw [List.cons_append, List.cons_append, List.nil_append]
  rw [List.append_assoc, List.append_assoc]
  rw [hlcMid_append _ _ ht, hlcMid_append _ _ ht, hlcMid_append _ _ ht]
  rw [hlcMid_cons _ _ (by decide), hlcMid_cons _ _ (by decide)]
  rw [hlcMid_nl, hlc_cons_nl]

theorem badTicksIntro_contains_valid (cb : CodeBlock) :
    containsStr (badTicksIntro cb) validTicks = true := by
  unfold badTicksIntro badTicksLine2
  exact containsStr_append_right _ _ _ (containsStr_append_right _ _ _
    (containsStr_append_right _ _ _ (containsStr_append_left _ _ _ (containsStr_self _))))

theorem contains_wrong_core (t : String) :
    containsStr (", not `" ++ ((t ++ t ++ t) ++ "`."))
      ("`" ++ (t ++ (t ++ (t ++ "`")))) = true := by
  unfold containsStr
  rw [show ((", not `" ++ ((t ++ t ++ t) ++ "`.")) : String).data =
    (", not " : String).data ++
      (('`' :: (t.data ++ (t.data ++ (t.data ++ ['`'])))) ++ ('.' :: [])) from by
      simp [String.data_append, List.append_assoc]]
  apply listContains_append_right
  apply listContains_of_ipo
  exact ipo_extend _ _ _ (ipo_refl ('`' :: (t.data ++ (t.data ++ (t.data ++ ['`'])))))

theorem badTicksIntro_contains_wrong (cb : CodeBlock) :
    containsStr (badTicksIntro cb)
      ("`" ++ (cb.tick ++ (cb.tick ++ (cb.tick ++ "`")))) = true := by
  unfold badTicksIntro badTicksLine2
  exact containsStr_append_right _ _ _ (containsStr_append_right _ _ _
    (containsStr_append_right _ _ _ (containsStr_append_right _ _ _
      (contains_wrong_core cb.tick))))

theorem hlc_badTicks_example (cb : CodeBlock) (h1 : noNl cb.tick.data)
    (h2 : noNl cb.language.data) :
    hlc (badTicksIntro cb ++ (exampleIntro ++ _get_example cb.language)).data = 1 := by
  rw [show (badTicksIntro cb ++ (exampleIntro ++ _get_example cb.language)).data =
    (badTicksIntro cb).data ++ ('\n' :: '\n' ::
      (("**Here is an example of how it should look:**" : String).data ++
        ('\n' :: (_get_example cb.language).data))) from rfl]
  rw [hlc_badTicksIntro_cut cb h1]
  rw [hlc_header_line_cut _ _ (by decide) (by decide)]
  rw [hlc_example cb.language h2]

theorem hlc_badTicks_furthermore (cb : CodeBlock) (h1 : noNl cb.tick.data) (T : String)
    (hT : hlc (("Furthermore, " : String).data ++ T.data) = 1) :
    hlc (badTicksIntro cb ++ ("\n\nFurthermore, " ++ T)).data = 1 := by
  rw [show (badTicksIntro cb ++ ("\n\nFurthermore, " ++ T)).data =
    (badTicksIntro cb).data ++ ('\n' :: '\n' ::
      (("Furthermore, " : String).data ++ T.data)) from rfl]
  rw [hlc_badTicksIntro_cut cb h1, hT]

theorem hlc_furthermore_nolang :
    hlc (("Furthermore, " : String).data ++
      (lowerFirst (replaceFirstStr noLangText "\n\n" " ")).data) = 1 := by decide

theorem noNl_strAppend (a b : String) (ha : noNl a.data) (hb : noNl b.data) :
    noNl (a ++ b).data := by
  rw [String.data_append]
  exact noNl_append _ _ ha hb

theorem noNl_noSpacesSentence (lang : String) (h : noNl lang.data) :
    noNl (noSpacesSentence lang).data := by
  unfold noSpacesSentence
  exact noNl_strAppend _ _ (by decide) (noNl_strAppend _ _ h (by decide))

theorem noNl_newlineSentence (lang : String) (h : noNl lang.data) :
    noNl (newlineSentence lang).data := by
  unfold newlineSentence
  exact noNl_strAppend _ _ (by decide) (noNl_strAppend _ _ h (noNl_strAppend _ _ (by decide)
    (noNl_strAppend _ _ (by decide) (noNl_strAppend _ _ h (by decide)))))

theorem hlc_furthermore_core (J lang : String) (hJ : noNl J.data) (hlang : noNl lang.data) :
    hlc (("Furthermore, " : String).data ++
      (lowerFirst (replaceFirstStr
        ("It looks like you incorrectly specified a language for your code block.\n\n" ++
          (J ++ (exampleIntro ++ _get_example lang))) "\n\n" " ")).data) = 1 := by
  unfold replaceFirstStr
  rw [show (("It looks like you incorrectly specified a language for your code block.\n\n" ++
      (J ++ (exampleIntro ++ _get_example lang))) : String).data =
    ("It looks like you incorrectly specified a language for your code block." : String).data ++
      (('\n' :: ['\n']) ++ (J.data ++ ('\n' :: '\n' ::
        (("**Here is an example of how it should look:**" : String).data ++
          ('\n' :: (_get_example lang).data))))) from rfl]
  rw [show ("\n\n" : String).data = '\n' :: ['\n'] from rfl,
    show (" " : String).data = [' '] from rfl]
  rw [replaceFirstL_at '\n' ['\n'] [' '] _ _ (by decide)]
  rw [show lowerFirst (String.mk
      (("It looks like you incorrectly specified a language for your code block." : String).data ++
        ([' '] ++ (J.data ++ ('\n' :: '\n' ::
          (("**Here is an example of how it should look:**" : String).data ++
            ('\n' :: (_get_example lang).data))))))) =
    String.mk ('I'.toLower ::
      (("t looks like you incorrectly specified a language for your code block." : String).data ++
        ([' '] ++ (J.data ++ ('\n' :: '\n' ::
          (("**Here is an example of how it should look:**" : String).data ++
            ('\n' :: (_get_example lang).data))))))) from rfl]
  rw [data_mk]
  rw [hlc_start_line _ _ (by decide) 'F' (by decide) (by decide)]
  rw [hlcMid_cons _ _ (by decide)]
  rw [hlcMid_append _ _ (by decide)]
  rw [hlcMid_append _ _ (by decide)]
  rw [hlcMid_append _ _ hJ]
  rw [hlcMid_nl, hlc_cons_nl]
  rw [hlc_header_line_cut _ _ (by decide) (by decide)]
  rw [hlc_example lang hlang]

theorem hlc_furthermore_badlang (P : Parsing) (content m : String)
    (hm : _get_bad_lang_message P content = some m)
    (hinfo : ∀ info, P.parse_bad_language content = some info → noNl info.language.data) :
    hlc (("Furthermore, " : String).data ++
      (lowerFirst (replaceFirstStr m "\n\n" " ")).data) = 1 := by
  cases hp : P.parse_bad_language content with
  | none =>
    unfold _get_bad_lang_message at hm
    rw [hp] at hm
    exact Option.noConfusion (show (none : Option String) = some m from hm)
  | some info =>
    have hlang := hinfo info hp
    cases hls : info.leading_spaces <;> cases htn : info.terminal_newline
    · have hm0 : _get_bad_lang_message P content =
          some ("It looks like you incorrectly specified a language for your code block.\n\n" ++
            (newlineSentence info.language ++
              (exampleIntro ++ _get_example info.language))) := by
        unfold _get_bad_lang_message
        rw [hp]
        dsimp only []
        rw [hls, htn]
        rfl
      rw [← Option.some.inj (hm0.symm.trans hm)]
      exact hlc_furthermore_core _ _ (noNl_newlineSentence _ hlang) hlang
    · have hm0 : _get_bad_lang_message P content = none := by
        unfold _get_bad_lang_message
        rw [hp]
        dsimp only []
        rw [hls, htn]
        rfl
      exact Option.noConfusion (hm0.symm.trans hm)
    · have hm0 : _get_bad_lang_message P content =
          some ("It looks like you incorrectly specified a language for your code block.\n\n" ++
            ((noSpacesSentence info.language ++ (" " ++ newlineSentence info.language)) ++
              (exampleIntro ++ _get_example info.language))) := by
        unfold _get_bad_lang_message
        rw [hp]
        dsimp only []
        rw [hls, htn]
        rfl
      rw [← Option.some.inj (hm0.symm.trans hm)]
      exact hlc_furthermore_core _ _
        (noNl_strAppend _ _ (noNl_noSpacesSentence _ hlang)
          (noNl_strAppend _ _ (by decide) (noNl_newlineSentence _ hlang))) hlang
    · have hm0 : _get_bad_lang_message P content =
          some ("It looks like you incorrectly specified a language for your code block.\n\n" ++
            (noSpacesSentence info.language ++
              (exampleIntro ++ _get_example info.language))) := by
        unfold _get_bad_lang_message
        rw [hp]
        dsimp only []
        rw [hls, htn]
        rfl
      rw [← Option.some.inj (hm0.symm.trans hm)]
      exact hlc_furthermore_core _ _ (noNl_noSpacesSentence _ hlang) hlang

/-- Claim C5: on a block with a non-canonical fence (a single-character fence and a
same-line tag, per the scanner's data model), the bad-fence advisor produces
exactly one message; that message quotes both the wrong fence symbol and the
escaped canonical triple backtick, and it never contains two top-level example
sections (the number of section-header lines is at most one). -/
theorem claim_C5_single_message (P : Parsing) (cb : CodeBlock) (htick : cb.tick ≠ BACKTICK)
    (h1 : noNl cb.tick.data) (h2 : noNl cb.language.data)
    (h3 : ∀ info, P.parse_bad_language cb.content = some info → noNl info.language.data) :
    ∃ m, _get_bad_ticks_message P cb = some m ∧
      containsStr m ("`" ++ (cb.tick ++ (cb.tick ++ (cb.tick ++ "`")))) = true ∧
      containsStr m validTicks = true ∧
      hlc m.data ≤ 1 := by
  cases hcond : (!truthy (_get_bad_lang_message P cb.content) && cb.language == "") with
  | true =>
    by_cases hc : (P.is_repl_code cb.content || P.is_python_code cb.content) = true
    · have hmsg : _get_bad_ticks_message P cb =
          some (badTicksIntro cb ++ ("\n\nFurthermore, " ++
            lowerFirst (replaceFirstStr noLangText "\n\n" " "))) := by
        unfold _get_bad_ticks_message
        rw [if_pos hcond]
        unfold _get_no_lang_message
        rw [if_pos hc]
        dsimp only []
        rw [if_neg (by simpa using noLangText_ne_empty)]
      refine ⟨_, hmsg, badTicksIntro_contains_wrong cb |> containsStr_append_left _ _ _,
        badTicksIntro_contains_valid cb |> containsStr_append_left _ _ _, ?_⟩
      rw [hlc_badTicks_furthermore cb h1 _ hlc_furthermore_nolang]
    · have hmsg : _get_bad_ticks_message P cb =
          some (badTicksIntro cb ++ (exampleIntro ++ _get_example cb.language)) := by
        unfold _get_bad_ticks_message
        rw [if_pos hcond]
        unfold _get_no_lang_message
        rw [if_neg hc]
      refine ⟨_, hmsg, badTicksIntro_contains_wrong cb |> containsStr_append_left _ _ _,
        badTicksIntro_contains_valid cb |> containsStr_append_left _ _ _, ?_⟩
      rw [hlc_badTicks_example cb h1 h2]
  | false =>
    cases hbl : _get_bad_lang_message P cb.content with
    | none =>
      have hmsg : _get_bad_ticks_message P cb =
          some (badTicksIntro cb ++ (exampleIntro ++ _get_example cb.language)) := by
        unfold _get_bad_ticks_message
        rw [if_neg (by rw [hcond]; exact Bool.false_ne_true), hbl]
      refine ⟨_, hmsg, badTicksIntro_contains_wrong cb |> containsStr_append_left _ _ _,
        badTicksIntro_contains_valid cb |> containsStr_append_left _ _ _, ?_⟩
      rw [hlc_badTicks_example cb h1 h2]
    | some s =>
      by_cases hs : (s == "") = true
      · have hmsg : _get_bad_ticks_message P cb =
            some (badTicksIntro cb ++ (exampleIntro ++ _get_example cb.language)) := by
          unfold _get_bad_ticks_message
          rw [if_neg (by rw [hcond]; exact Bool.false_ne_true), hbl]
          dsimp only []
          rw [if_pos hs]
        refine ⟨_, hmsg, badTicksIntro_contains_wrong cb |> containsStr_append_left _ _ _,
          badTicksIntro_contains_valid cb |> containsStr_append_left _ _ _, ?_⟩
        rw [hlc_badTicks_example cb h1 h2]
      · have hmsg : _get_bad_ticks_message P cb =
            some (badTicksIntro cb ++ ("\n\nFurthermore, " ++
              lowerFirst (replaceFirstStr s "\n\n" " "))) := by
          unfold _get_bad_ticks_message
          rw [if_neg (by rw [hcond]; exact Bool.false_ne_true), hbl]
          dsimp only []
          rw [if_neg hs]
        refine ⟨_, hmsg, badTicksIntro_contains_wrong cb |> containsStr_append_left _ _ _,
          badTicksIntro_contains_valid cb |> containsStr_append_left _ _ _, ?_⟩
        rw [hlc_badTicks_furthermore cb h1 _ (hlc_furthermore_badlang P cb.content s hbl h3)]

/-- Witness for C5: the advisor output on a concrete tilde-fenced block. -/
theorem claim_C5_single_message_witness :
    ∃ m, _get_bad_ticks_message trivialParsing tildeBlock = some m ∧
      containsStr m ("`" ++ (tildeBlock.tick ++ (tildeBlock.tick ++ (tildeBlock.tick ++ "`")))) = true ∧
      containsStr m validTicks = true ∧
      hlc m.data ≤ 1 :=
  claim_C5_single_message trivialParsing tildeBlock (by decide) (by decide) (by decide)
    (fun info h => nomatch h)
